import Mathlib

/-!
Verification of the link-shortener's data layer, redirect route and server
actions, as a shallow embedding.

The store is modelled as a list of rows plus the identity counter of the
`links` table (`id` is `generatedAlwaysAsIdentity`, so the store assigns
increasing ids).  Timestamps are naturals.  Database errors and thrown
JavaScript `Error`s are modelled as `Except String`; each mutating
operation returns its result together with the post-state of the store,
the store being unchanged whenever the operation fails before writing.
The `Math.random()` source of `generateShortCode` is modelled as an oracle
`rand : Nat → Nat` giving the successive draws
`Math.floor(Math.random() * chars.length)` (each reduced mod the alphabet
size, since the real draws are always in range).
-/

/-- One row of the `links` table (schema in `db/schema.ts`). -/
structure Link where
  id : Nat
  clerkUserId : String
  shortCode : String
  url : String
  createdAt : Nat
  updatedAt : Nat
deriving DecidableEq, Repr

/-- The `links` table together with its identity-column counter. -/
structure Store where
  rows : List Link
  nextId : Nat
deriving DecidableEq, Repr

/-- Primary-key invariant of the store: row ids are pairwise distinct. -/
def Store.uniqueIds (s : Store) : Prop :=
  s.rows.Pairwise (fun a b => a.id ≠ b.id)

/-- Unique-index invariant of the store (`links_short_code_idx`): short
codes are pairwise distinct. -/
def Store.uniqueCodes (s : Store) : Prop :=
  s.rows.Pairwise (fun a b => a.shortCode ≠ b.shortCode)

/-- Function `shortCodeExists` from `src/data/links.ts`: select the rows whose
`shortCode` matches, limit 1, and test whether the result is non-empty. -/
def shortCodeExists (s : Store) (shortCode : String) : Bool :=
  s.rows.any (fun l => l.shortCode == shortCode)

/-- Function `getLinkByShortCode` from `src/data/links.ts`: first matching row or
`null`. -/
def getLinkByShortCode (s : Store) (shortCode : String) : Option Link :=
  s.rows.find? (fun l => l.shortCode == shortCode)

/-- Function `getLinkById` from `src/data/links.ts`: select by `id`, then return
`null` unless the row exists and its `clerkUserId` matches the caller. -/
def getLinkById (s : Store) (linkId : Nat) (clerkUserId : String) : Option Link :=
  match s.rows.find? (fun l => l.id == linkId) with
  | none => none
  | some link => if link.clerkUserId == clerkUserId then some link else none

/-- The alphabet of `generateShortCode` in `src/data/links.ts`. -/
def chars : String :=
  "abcdefghijklmnopqrstuvwxyzABCDEFGHIJKLMNOPQRSTUVWXYZ0123456789"

/-- Function `generateShortCode` from `src/data/links.ts`: build a string of
`length` characters, the `i`-th drawn by `chars.charAt(Math.floor(Math.random() * chars.length))`;
the draw for position `i` of the call whose draws start at index `start`
is `rand (start + i)`, reduced mod `chars.length` because the real draw is
always in range. -/
def generateShortCode (rand : Nat → Nat) (start : Nat) (length : Nat) : String :=
  String.mk ((List.range length).map
    (fun i => chars.toList.getD (rand (start + i) % chars.toList.length) 'a'))

/-- The `while (attempts < maxAttempts)` loop of `generateUniqueShortCode`,
with `remaining = maxAttempts - attempts`.  The `attempts`-th iteration
generates the candidate using draws `6 * attempts, …, 6 * attempts + 5`
(each call to `generateShortCode` consumes six fresh draws).  The second
component counts how many candidates were generated. -/
def generateUniqueGo (s : Store) (rand : Nat → Nat) :
    Nat → Nat → Except String String × Nat
  | _, 0 => (Except.error "Unable to generate unique short code", 0)
  | attempts, remaining + 1 =>
    let shortCode := generateShortCode rand (6 * attempts) 6
    if shortCodeExists s shortCode then
      let rest := generateUniqueGo s rand (attempts + 1) remaining
      (rest.1, rest.2 + 1)
    else
      (Except.ok shortCode, 1)

/-- Function `generateUniqueShortCode` from `src/data/links.ts`: up to
`maxAttempts = 10` candidates, returning the first one absent from the
store, throwing after 10 failures.  The count of generated candidates is
kept as the second component for the attempt-count properties. -/
def generateUniqueShortCode (s : Store) (rand : Nat → Nat) :
    Except String String × Nat :=
  generateUniqueGo s rand 0 10

/-- The store's insert honouring the unique index `links_short_code_idx`
and the identity column: inserting a row whose `shortCode` is already
present raises the store's own constraint-violation error (its message is
the database driver's, not one of the data layer's strings); otherwise the
row is appended with a fresh id and `createdAt = updatedAt = now`. -/
def dbInsert (s : Store) (clerkUserId shortCode url : String) (now : Nat) :
    Except String Link × Store :=
  if s.rows.any (fun l => l.shortCode == shortCode) then
    (Except.error "duplicate key value violates unique constraint", s)
  else
    let link : Link := ⟨s.nextId, clerkUserId, shortCode, url, now, now⟩
    (Except.ok link, ⟨s.rows ++ [link], s.nextId + 1⟩)

/-- Function `createLink` from `src/data/links.ts`, with the store state at the
pre-check (`sPre`) and at the insert (`sIns`) kept separate: each database
access is a suspension point, so a concurrent request may change the store
between the two (§5 of the spec).  A non-empty `shortCode` is a provided
custom code (JavaScript truthiness: the entry point encodes an absent code
as `""`); the empty string takes the generator branch. -/
def createLinkAt (sPre sIns : Store) (rand : Nat → Nat) (now : Nat)
    (clerkUserId url shortCode : String) : Except String Link × Store :=
  if shortCode ≠ "" then
    if shortCodeExists sPre shortCode then
      (Except.error "Short code already exists", sIns)
    else
      dbInsert sIns clerkUserId shortCode url now
  else
    match generateUniqueShortCode sPre rand with
    | (Except.ok sc, _) => dbInsert sIns clerkUserId sc url now
    | (Except.error e, _) => (Except.error e, sIns)

/-- Function `createLink` from `src/data/links.ts` in the sequential (race-free)
case: pre-check and insert observe the same store. -/
def createLink (s : Store) (rand : Nat → Nat) (now : Nat)
    (clerkUserId url shortCode : String) : Except String Link × Store :=
  createLinkAt s s rand now clerkUserId url shortCode

/-- The store's update honouring the unique index: setting the row(s)
matching `linkId` to the new url/short code fails with the store's own
constraint-violation error when a different row already holds the new
short code; otherwise the matching rows are rewritten, the schema's
`$onUpdate` refreshing `updatedAt` to `now`, and the first updated row is
returned (the `.returning()` destructuring; `no rows returned` stands for
the `undefined` the source would return if no row matched, unreachable
after the existence check in its callers). -/
def dbUpdate (s : Store) (linkId : Nat) (newUrl newShortCode : String)
    (now : Nat) : Except String Link × Store :=
  if s.rows.any (fun l => decide (l.id ≠ linkId) && (l.shortCode == newShortCode)) then
    (Except.error "duplicate key value violates unique constraint", s)
  else
    let newRows := s.rows.map (fun l =>
      if l.id == linkId then
        { l with url := newUrl, shortCode := newShortCode, updatedAt := now }
      else l)
    match newRows.find? (fun l => l.id == linkId) with
    | some link => (Except.ok link, ⟨newRows, s.nextId⟩)
    | none => (Except.error "no rows returned", ⟨newRows, s.nextId⟩)

/-- Function `updateLink` from `src/data/links.ts`: fetch via `getLinkById` (absent
means `Link not found or unauthorized`); when a truthy `data.shortCode`
differs from the current one, check availability; then update with
`data.url ?? existingLink.url` and `data.shortCode ?? existingLink.shortCode`.
`none` models a missing (`undefined`) field; `some ""` is falsy for the
truthiness test but, being non-nullish, would be written by `??`. -/
def updateLink (s : Store) (now : Nat) (linkId : Nat) (clerkUserId : String)
    (url? shortCode? : Option String) : Except String Link × Store :=
  match getLinkById s linkId clerkUserId with
  | none => (Except.error "Link not found or unauthorized", s)
  | some existingLink =>
    let needCheck : Bool :=
      match shortCode? with
      | none => false
      | some sc => decide (sc ≠ "") && decide (sc ≠ existingLink.shortCode)
    if needCheck && shortCodeExists s (shortCode?.getD "") then
      (Except.error "Short code already exists", s)
    else
      dbUpdate s linkId (url?.getD existingLink.url)
        (shortCode?.getD existingLink.shortCode) now

/-- The store's delete: remove every row matching `linkId`. -/
def dbDelete (s : Store) (linkId : Nat) : Store :=
  ⟨s.rows.filter (fun l => !(l.id == linkId)), s.nextId⟩

/-- Function `deleteLink` from `src/data/links.ts`: fetch via `getLinkById` (absent
means `Link not found or unauthorized`), then delete and return `true`. -/
def deleteLink (s : Store) (linkId : Nat) (clerkUserId : String) :
    Except String Bool × Store :=
  match getLinkById s linkId clerkUserId with
  | none => (Except.error "Link not found or unauthorized", s)
  | some _ => (Except.ok true, dbDelete s linkId)

/-- An HTTP response as far as the redirect route is concerned: status,
optional plain-text body, optional `Location`. -/
structure HttpResponse where
  status : Nat
  body : Option String
  location : Option String
deriving DecidableEq, Repr

/-- Handler `GET` from `src/app/r/[shortCode]/route.ts`: look the path segment up
verbatim via `getLinkByShortCode`; absent gives
`new NextResponse("Link not found", { status: 404 })`, present gives
`NextResponse.redirect(link.url, { status: 307 })`. -/
def redirectGET (s : Store) (shortCode : String) : HttpResponse :=
  match getLinkByShortCode s shortCode with
  | none => ⟨404, some "Link not found", none⟩
  | some link => ⟨307, none, some link.url⟩

/-- Character class of the `createLinkSchema` regex `[a-zA-Z0-9-_]`. -/
def validShortCodeChar (c : Char) : Bool :=
  ('a' ≤ c && c ≤ 'z') || ('A' ≤ c && c ≤ 'Z') || ('0' ≤ c && c ≤ '9')
    || c == '-' || c == '_'

/-- Validation `createLinkSchema.parse` from `src/app/[locale]/dashboard/actions.ts`,
failing with the first violated constraint's message (url is checked
first, matching the object's key order).  `validUrl` is the external URL
parser backing `z.string().url()`; `none` models a runtime-`undefined`
field, rejected for `url` with zod's missing-required message and accepted
for the optional `shortCode`; the `.or(z.literal(""))` branch lets the
empty string through the short-code constraints. -/
def createLinkSchemaParse (validUrl : String → Bool)
    (url? shortCode? : Option String) : Except String (String × Option String) :=
  match url? with
  | none => Except.error "Required"
  | some u =>
    if !validUrl u then Except.error "Please enter a valid URL"
    else
      match shortCode? with
      | none => Except.ok (u, none)
      | some sc =>
        if sc == "" then Except.ok (u, some "")
        else if sc.length < 3 then
          Except.error "Short code must be at least 3 characters"
        else if sc.length > 32 then
          Except.error "Short code must be less than 32 characters"
        else if !sc.toList.all validShortCodeChar then
          Except.error "Short code can only contain letters, numbers, hyphens, and underscores"
        else Except.ok (u, some sc)

/-- The JavaScript idiom `x || undefined` on an optional string: the empty
string (falsy) becomes `undefined`. -/
def jsOrUndefined (x : Option String) : Option String :=
  match x with
  | none => none
  | some sc => if sc == "" then none else some sc

/-- The uniform result shape of the server actions:
`{ success: true, data }` or `{ success: false, error }`. -/
inductive ActionResult (α : Type) where
  | ok (data : α)
  | err (error : String)
deriving DecidableEq, Repr

/-- Action `createLink` from `src/app/[locale]/dashboard/actions.ts` (the server
action).  `userId?` is the identity resolved by `auth()`.  The body's
thrown errors (`ZodError` and the data layer's `Error`s) are caught at
this boundary and converted to `ActionResult.err` carrying the message,
exactly as the source's `try/catch` does; every branch therefore produces
the uniform shape. -/
def createLinkAction (validUrl : String → Bool) (userId? : Option String)
    (s : Store) (rand : Nat → Nat) (now : Nat) (url? shortCode? : Option String) :
    ActionResult String × Store :=
  match userId? with
  | none => (ActionResult.err "Unauthorized", s)
  | some userId =>
    match createLinkSchemaParse validUrl url? (jsOrUndefined shortCode?) with
    | Except.error e => (ActionResult.err e, s)
    | Except.ok (vurl, vsc?) =>
      match createLink s rand now userId vurl (vsc?.getD "") with
      | (Except.error e, s') => (ActionResult.err e, s')
      | (Except.ok link, s') => (ActionResult.ok link.shortCode, s')

/-- Action `updateLink` from `src/app/[locale]/dashboard/actions.ts` (the server
action): authenticate, validate with the same `createLinkSchema`, then
call the data layer with `url: validated.url` and
`shortCode: validated.shortCode || undefined`; thrown errors are caught at
the boundary as in `createLinkAction`. -/
def updateLinkAction (validUrl : String → Bool) (userId? : Option String)
    (s : Store) (now : Nat) (linkId : Nat) (url? shortCode? : Option String) :
    ActionResult String × Store :=
  match userId? with
  | none => (ActionResult.err "Unauthorized", s)
  | some userId =>
    match createLinkSchemaParse validUrl url? (jsOrUndefined shortCode?) with
    | Except.error e => (ActionResult.err e, s)
    | Except.ok (vurl, vsc?) =>
      match updateLink s now linkId userId (some vurl) (jsOrUndefined vsc?) with
      | (Except.error e, s') => (ActionResult.err e, s')
      | (Except.ok link, s') => (ActionResult.ok link.shortCode, s')

/-- Action `deleteLink` from `src/app/[locale]/dashboard/actions.ts` (the server
action): authenticate and delegate; thrown errors are caught at the
boundary. -/
def deleteLinkAction (userId? : Option String) (s : Store) (linkId : Nat) :
    ActionResult Unit × Store :=
  match userId? with
  | none => (ActionResult.err "Unauthorized", s)
  | some userId =>
    match deleteLink s linkId userId with
    | (Except.error e, s') => (ActionResult.err e, s')
    | (Except.ok _, s') => (ActionResult.ok (), s')

deriving instance DecidableEq for Except

/-- C1 helper: a row with the wanted short code makes `shortCodeExists`
true. -/
theorem shortCodeExists_of_mem {s : Store} {l : Link} {c : String}
    (hm : l ∈ s.rows) (hc : l.shortCode = c) : shortCodeExists s c = true := by
  unfold shortCodeExists
  exact List.any_eq_true.mpr ⟨l, hm, by simp [hc]⟩

/-- C1: creating with a custom short code that is already present fails with
the `DuplicateShortCode` error string and leaves the store unchanged.  A
provided custom code is a non-empty string (the entry point encodes
"no custom code" as `""`, which is falsy in the source). -/
theorem createLink_duplicate_custom_code (s : Store) (rand : Nat → Nat)
    (now : Nat) (ownerId url c : String) (l : Link)
    (hne : c ≠ "") (hm : l ∈ s.rows) (hc : l.shortCode = c) :
    createLink s rand now ownerId url c
      = (Except.error "Short code already exists", s) := by
  unfold createLink createLinkAt
  rw [if_pos hne, if_pos (shortCodeExists_of_mem hm hc)]

/-- C1 witness: a concrete store holding "promo" rejects a second create
with custom code "promo" and is left unchanged. -/
theorem createLink_duplicate_custom_code_witness :
    createLink ⟨[⟨1, "userA", "promo", "https://a.example", 0, 0⟩], 2⟩
        (fun _ => 0) 5 "userB" "https://b.example" "promo"
      = (Except.error "Short code already exists",
         ⟨[⟨1, "userA", "promo", "https://a.example", 0, 0⟩], 2⟩) :=
  createLink_duplicate_custom_code _ (fun _ => 0) 5 "userB" "https://b.example"
    "promo" ⟨1, "userA", "promo", "https://a.example", 0, 0⟩
    (by decide) (by simp) rfl

/-- Generator loop, exhaustion case: when every one of the `r` remaining
candidates is taken, the loop returns the exhaustion error after exactly
`r` further candidate generations. -/
theorem generateUniqueGo_all_taken (s : Store) (rand : Nat → Nat) (r : Nat) :
    ∀ a, (∀ i, i < r →
        shortCodeExists s (generateShortCode rand (6 * (a + i)) 6) = true) →
      generateUniqueGo s rand a r
        = (Except.error "Unable to generate unique short code", r) := by
  induction r with
  | zero => intro a _; rfl
  | succ r ih =>
    intro a h
    have h0 : shortCodeExists s (generateShortCode rand (6 * a) 6) = true := by
      simpa using h 0 (Nat.succ_pos r)
    have hrec := ih (a + 1) (fun i hi => by
      have hh := h (i + 1) (Nat.succ_lt_succ hi)
      have he : a + (i + 1) = a + 1 + i := by omega
      rwa [he] at hh)
    simp [generateUniqueGo, h0, hrec]

/-- Generator loop, success case: when the first `k` remaining candidates
are taken and the next one is free, the loop returns that candidate after
exactly `k + 1` candidate generations. -/
theorem generateUniqueGo_first_fresh (s : Store) (rand : Nat → Nat) :
    ∀ k a r, k < r →
      (∀ i, i < k →
        shortCodeExists s (generateShortCode rand (6 * (a + i)) 6) = true) →
      shortCodeExists s (generateShortCode rand (6 * (a + k)) 6) = false →
      generateUniqueGo s rand a r
        = (Except.ok (generateShortCode rand (6 * (a + k)) 6), k + 1) := by
  intro k
  induction k with
  | zero =>
    intro a r hr _ hfresh
    match r, hr with
    | r + 1, _ =>
      simp only [Nat.add_zero] at hfresh
      simp [generateUniqueGo, hfresh]
  | succ k ih =>
    intro a r hr htaken hfresh
    match r, hr with
    | r + 1, hr =>
      have h0 : shortCodeExists s (generateShortCode rand (6 * a) 6) = true := by
        simpa using htaken 0 (Nat.succ_pos k)
      have he : a + 1 + k = a + (k + 1) := by omega
      have hrec := ih (a + 1) r (Nat.lt_of_succ_lt_succ hr)
        (fun i hi => by
          have hh := htaken (i + 1) (Nat.succ_lt_succ hi)
          have he2 : a + (i + 1) = a + 1 + i := by omega
          rwa [he2] at hh)
        (by rwa [he])
      rw [he] at hrec
      simp [generateUniqueGo, h0, hrec]

/-- C3: if every one of the 10 candidates the generator draws is already
present in the store, `generateUniqueShortCode` performs exactly 10
candidate generations and fails with the exhaustion error; if the first
free candidate is drawn at attempt `k`, it is returned immediately, after
exactly `k + 1` candidate generations. -/
theorem generateUnique_attempt_bound (s : Store) (rand : Nat → Nat) :
    ((∀ i, i < 10 →
        shortCodeExists s (generateShortCode rand (6 * i) 6) = true) →
      generateUniqueShortCode s rand
        = (Except.error "Unable to generate unique short code", 10)) ∧
    (∀ k, k < 10 →
      (∀ i, i < k →
        shortCodeExists s (generateShortCode rand (6 * i) 6) = true) →
      shortCodeExists s (generateShortCode rand (6 * k) 6) = false →
      generateUniqueShortCode s rand
        = (Except.ok (generateShortCode rand (6 * k) 6), k + 1)) := by
  constructor
  · intro h
    have hgo := generateUniqueGo_all_taken s rand 10 0 (fun i hi => by
      simpa using h i hi)
    simpa [generateUniqueShortCode] using hgo
  · intro k hk htaken hfresh
    have hgo := generateUniqueGo_first_fresh s rand k 0 10 hk
      (fun i hi => by simpa using htaken i hi) (by simpa using hfresh)
    simpa [generateUniqueShortCode] using hgo

/-- C3 witness: with the constant randomness oracle every candidate is
"aaaaaa"; a store already holding "aaaaaa" exhausts the generator after
exactly 10 attempts, and a store not holding it gets "aaaaaa" on the
first attempt. -/
theorem generateUnique_attempt_bound_witness :
    generateUniqueShortCode ⟨[⟨1, "u", "aaaaaa", "https://a.example", 0, 0⟩], 2⟩
        (fun _ => 0)
      = (Except.error "Unable to generate unique short code", 10) ∧
    generateUniqueShortCode ⟨[], 1⟩ (fun _ => 0)
      = (Except.ok "aaaaaa", 1) := by
  constructor
  · exact (generateUnique_attempt_bound _ _).1 (by decide)
  · have h := (generateUnique_attempt_bound ⟨[], 1⟩ (fun _ => 0)).2 0
      (by decide) (by intro i hi; omega) (by decide)
    simpa using h

/-- C2: evaluation at the failing interleaving.  The pre-check runs
against a store without "promo"; a concurrent create inserts "promo"
before this request's insert runs.  The insert's constraint violation
propagates verbatim — the caller sees the store's own error, not the
data layer's "Short code already exists": the insert call site has no
catch/translate step. -/
theorem createLink_insert_race_divergence :
    (createLinkAt ⟨[], 1⟩
        ⟨[⟨1, "userA", "promo", "https://a.example", 0, 0⟩], 2⟩
        (fun _ => 0) 7 "userB" "https://b.example" "promo").1
      = Except.error "duplicate key value violates unique constraint" ∧
    (Except.error "duplicate key value violates unique constraint"
        : Except String Link)
      ≠ Except.error "Short code already exists" := by
  constructor
  · rfl
  · decide

/-- Generator loop: a successfully returned candidate is absent from the
store (only the first component of the instrumented pair matters). -/
theorem generateUniqueGo_ok_fresh (s : Store) (rand : Nat → Nat) :
    ∀ r a sc, (generateUniqueGo s rand a r).1 = Except.ok sc →
      shortCodeExists s sc = false := by
  intro r
  induction r with
  | zero => intro a sc h; simp [generateUniqueGo] at h
  | succ r ih =>
    intro a sc h
    by_cases hc : shortCodeExists s (generateShortCode rand (6 * a) 6) = true
    · simp only [generateUniqueGo, hc, if_true] at h
      exact ih (a + 1) sc h
    · simp only [generateUniqueGo, hc, if_false] at h
      have hsc : generateShortCode rand (6 * a) 6 = sc := by
        simpa using h
      rw [← hsc]
      simpa using hc

/-- The helper `find?` over a partitioned list: if nothing on the left
matches, search continues on the right. -/
theorem find_append_of_none {α : Type} {p : α → Bool} {xs ys : List α}
    (h : xs.find? p = none) : (xs ++ ys).find? p = ys.find? p := by
  rw [List.find?_append, h, Option.none_or]

/-- C4: creating a link with no custom short code (the entry point encodes
that as `""`) and then resolving the returned short code via the public
redirect route yields a 307 redirect to exactly the stored url. -/
theorem create_then_redirect (s : Store) (rand : Nat → Nat) (now : Nat)
    (ownerId u : String) (link : Link) (s' : Store)
    (h : createLink s rand now ownerId u "" = (Except.ok link, s')) :
    redirectGET s' link.shortCode = ⟨307, none, some u⟩ := by
  unfold createLink createLinkAt at h
  rw [if_neg (by simp)] at h
  rcases hg : generateUniqueShortCode s rand with ⟨res, n⟩
  rw [hg] at h
  cases res with
  | error e => simp at h
  | ok sc =>
    have hfresh : shortCodeExists s sc = false := by
      apply generateUniqueGo_ok_fresh s rand 10 0
      rw [show generateUniqueGo s rand 0 10 = generateUniqueShortCode s rand
            from rfl, hg]
    have h2 : dbInsert s ownerId sc u now = (Except.ok link, s') := h
    have hany : (s.rows.any fun l => l.shortCode == sc) = false := hfresh
    simp only [dbInsert, hany, Bool.false_eq_true, if_false,
      Prod.mk.injEq, Except.ok.injEq] at h2
    obtain ⟨hl, hs⟩ := h2
    subst hl
    subst hs
    unfold redirectGET getLinkByShortCode
    rw [find_append_of_none (List.find?_eq_none.mpr (fun x hx => by
      intro hpx
      have : shortCodeExists s sc = true :=
        List.any_eq_true.mpr ⟨x, hx, hpx⟩
      rw [hfresh] at this
      exact absurd this (by simp)))]
    simp [List.find?]

/-- C4 witness: on the empty store, with the constant randomness oracle,
the created code is "aaaaaa" and redirects to the created url. -/
theorem create_then_redirect_witness :
    redirectGET ⟨[⟨1, "user", "aaaaaa", "https://example.com/x", 0, 0⟩], 2⟩ "aaaaaa"
      = ⟨307, none, some "https://example.com/x"⟩ :=
  create_then_redirect ⟨[], 1⟩ (fun _ => 0) 0 "user" "https://example.com/x"
    ⟨1, "user", "aaaaaa", "https://example.com/x", 0, 0⟩
    ⟨[⟨1, "user", "aaaaaa", "https://example.com/x", 0, 0⟩], 2⟩ (by decide)

/-- Under the primary-key invariant, searching by the id of a member row
finds exactly that row. -/
theorem find_id_of_pairwise {rows : List Link} {l : Link} {i : Nat}
    (hp : rows.Pairwise (fun a b => a.id ≠ b.id)) (hm : l ∈ rows)
    (hi : l.id = i) :
    rows.find? (fun x => x.id == i) = some l := by
  induction rows with
  | nil => cases hm
  | cons h t ih =>
    rcases List.mem_cons.mp hm with rfl | hmt
    · rw [List.find?_cons_of_pos _ (by simp [hi])]
    · have hp' := List.pairwise_cons.mp hp
      have hne : h.id ≠ l.id := hp'.1 l hmt
      rw [List.find?_cons_of_neg _ (by
        simp only [beq_iff_eq]
        intro hb
        exact hne (hb.trans hi.symm))]
      exact ih hp'.2 hmt

/-- C5: ownership isolation of `getLinkById`.  For a store satisfying the
primary-key invariant: a link owned by `A` is absent for any other caller
`B`, and the result is the same `none` as for an id present in no row at
all. -/
theorem getLinkById_ownership_isolation (s : Store) (A B : String) (l : Link)
    (j : Nat) (hids : s.uniqueIds) :
    (l ∈ s.rows → l.clerkUserId = A → A ≠ B → getLinkById s l.id B = none) ∧
    ((∀ x ∈ s.rows, x.id ≠ j) → getLinkById s j B = none) := by
  constructor
  · intro hm hA hAB
    unfold getLinkById
    rw [find_id_of_pairwise hids hm rfl]
    have hne : l.clerkUserId ≠ B := by rw [hA]; exact hAB
    simp [hne]
  · intro hj
    unfold getLinkById
    rw [List.find?_eq_none.mpr (fun x hx => by simp [hj x hx])]

/-- C5 witness: a store with one link owned by "userA"; caller "userB"
gets `none` both for that link's id and for an id that exists in no row. -/
theorem getLinkById_ownership_isolation_witness :
    getLinkById ⟨[⟨1, "userA", "abc", "https://a.example", 0, 0⟩], 2⟩ 1 "userB"
      = none ∧
    getLinkById ⟨[⟨1, "userA", "abc", "https://a.example", 0, 0⟩], 2⟩ 99 "userB"
      = none := by
  have h := getLinkById_ownership_isolation
    ⟨[⟨1, "userA", "abc", "https://a.example", 0, 0⟩], 2⟩ "userA" "userB"
    ⟨1, "userA", "abc", "https://a.example", 0, 0⟩ 99
    (by unfold Store.uniqueIds; decide)
  exact ⟨h.1 (by simp) rfl (by decide), h.2 (by decide)⟩

/-- Under the primary-key invariant two member rows with the same id are
the same row. -/
theorem eq_of_mem_same_id {rows : List Link} {x y : Link}
    (hp : rows.Pairwise (fun a b => a.id ≠ b.id)) (hx : x ∈ rows)
    (hy : y ∈ rows) (h : x.id = y.id) : x = y := by
  by_contra hne
  exact hp.forall (fun a b hab => Ne.symm hab) hx hy hne h

/-- Under the unique-index invariant two member rows with the same short
code are the same row. -/
theorem eq_of_mem_same_code {rows : List Link} {x y : Link}
    (hp : rows.Pairwise (fun a b => a.shortCode ≠ b.shortCode)) (hx : x ∈ rows)
    (hy : y ∈ rows) (h : x.shortCode = y.shortCode) : x = y := by
  by_contra hne
  exact hp.forall (fun a b hab => Ne.symm hab) hx hy hne h

/-- Under the unique-index invariant, no row other than `l` itself holds
`l`'s short code, so the store's update constraint check passes when a row
keeps its own code. -/
theorem dbUpdate_no_conflict {s : Store} {l : Link} (hc : s.uniqueCodes)
    (hm : l ∈ s.rows) :
    (s.rows.any fun x => decide (x.id ≠ l.id) && (x.shortCode == l.shortCode))
      = false := by
  rw [List.any_eq_false]
  intro x hx
  simp only [Bool.and_eq_true, decide_eq_true_eq, beq_iff_eq, not_and]
  intro hne hcode
  exact hne (congrArg Link.id (eq_of_mem_same_code hc hx hm hcode))

/-- C6: the data layer's partial update with `shortCode` omitted.  Under
the store invariants, updating a caller-owned link with only a url returns
that link with only `url` and `updatedAt` changed (`id`, `clerkUserId`,
`shortCode` and `createdAt` are kept by the record update), and the store
keeps every other row unchanged, the updated row replacing the old one in
place. -/
theorem updateLink_url_only (s : Store) (now linkId : Nat) (uid u : String)
    (existing : Link) (hids : s.uniqueIds) (hcodes : s.uniqueCodes)
    (hm : existing ∈ s.rows) (hid : existing.id = linkId)
    (hown : existing.clerkUserId = uid) :
    updateLink s now linkId uid (some u) none
      = (Except.ok { existing with url := u, updatedAt := now },
         ⟨s.rows.map (fun l => if l.id == linkId
             then { existing with url := u, updatedAt := now } else l),
          s.nextId⟩) := by
  have hget : getLinkById s linkId uid = some existing := by
    unfold getLinkById
    rw [find_id_of_pairwise hids hm hid]
    simp [hown]
  unfold updateLink
  rw [hget]
  simp only [Option.getD_some, Option.getD_none, Bool.false_and, Bool.false_eq_true,
    if_false]
  unfold dbUpdate
  rw [show (s.rows.any fun x =>
        decide (x.id ≠ linkId) && (x.shortCode == existing.shortCode)) = false
      from hid ▸ dbUpdate_no_conflict hcodes hm]
  simp only [Bool.false_eq_true, if_false]
  have hmapeq : s.rows.map (fun l => if l.id == linkId
        then { l with url := u, shortCode := existing.shortCode, updatedAt := now }
        else l)
      = s.rows.map (fun l => if l.id == linkId
        then { existing with url := u, updatedAt := now } else l) := by
    apply List.map_congr_left
    intro a ha
    by_cases hai : (a.id == linkId) = true
    · have haeq : a = existing :=
        eq_of_mem_same_id hids ha hm ((beq_iff_eq.mp hai).trans hid.symm)
      rw [hai, if_pos rfl, if_pos rfl, haeq]
    · rw [if_neg hai, if_neg hai]
  rw [hmapeq]
  rw [@find_id_of_pairwise
      (s.rows.map (fun l => if l.id == linkId
        then { existing with url := u, updatedAt := now } else l))
      ({ existing with url := u, updatedAt := now }) linkId ?hp ?hm ?hi]
  case hp =>
    have hinj : ∀ a : Link, (if (a.id == linkId) = true
        then ({ existing with url := u, updatedAt := now } : Link) else a).id
          = a.id := by
      intro a
      by_cases hai : (a.id == linkId) = true
      · rw [if_pos hai]
        exact hid.trans (beq_iff_eq.mp hai).symm
      · rw [if_neg hai]
    refine (List.pairwise_map).mpr (hids.imp ?_)
    intro a b hab
    simp only [hinj]
    exact hab
  case hm =>
    refine List.mem_map.mpr ⟨existing, hm, ?_⟩
    show (if (existing.id == linkId) = true
        then ({ existing with url := u, updatedAt := now } : Link) else existing)
      = { existing with url := u, updatedAt := now }
    rw [if_pos (beq_iff_eq.mpr hid)]
  case hi => exact hid

/-- C6 witness: a concrete two-row store; updating link 1's url leaves its
short code, id, owner and `createdAt` alone, refreshes `updatedAt`, and
leaves link 2 untouched. -/
theorem updateLink_url_only_witness :
    updateLink ⟨[⟨1, "userA", "abc", "https://old.example", 0, 0⟩,
                 ⟨2, "userB", "xyz", "https://other.example", 0, 0⟩], 3⟩
        7 1 "userA" (some "https://new.example") none
      = (Except.ok ⟨1, "userA", "abc", "https://new.example", 0, 7⟩,
         ⟨[⟨1, "userA", "abc", "https://new.example", 0, 7⟩,
           ⟨2, "userB", "xyz", "https://other.example", 0, 0⟩], 3⟩) := by
  have h := updateLink_url_only
    ⟨[⟨1, "userA", "abc", "https://old.example", 0, 0⟩,
      ⟨2, "userB", "xyz", "https://other.example", 0, 0⟩], 3⟩
    7 1 "userA" "https://new.example"
    ⟨1, "userA", "abc", "https://old.example", 0, 0⟩
    (by unfold Store.uniqueIds; decide) (by unfold Store.uniqueCodes; decide)
    (by simp) rfl rfl
  exact h.trans (by decide)

/-- C7 counterexample: an authenticated caller who owns link 1 sends only
a valid, available short code ("newcode") and omits `url`; the claim says
this succeeds, but the entry point validates with `createLinkSchema`,
whose `url` field is required, so the call fails validation with the
missing-field message and the store is unchanged. -/
theorem updateLinkAction_url_omitted_counterexample :
    updateLinkAction (fun _ => true) (some "userA")
        ⟨[⟨1, "userA", "oldcode", "https://old.example", 0, 0⟩], 2⟩ 5 1
        none (some "newcode")
      = (ActionResult.err "Required",
         ⟨[⟨1, "userA", "oldcode", "https://old.example", 0, 0⟩], 2⟩) ∧
    (ActionResult.err "Required" : ActionResult String)
      ≠ ActionResult.ok "newcode" := by
  exact ⟨rfl, by decide⟩

/-- C7 amended: at the `updateLink` entry point `url` is required, not
optional: for any authenticated caller, any store, and any `shortCode`
field, omitting `url` fails schema validation with
`{ success: false, error: "Required" }` and the store is unchanged. -/
theorem updateLinkAction_url_required (validUrl : String → Bool)
    (userId : String) (s : Store) (now linkId : Nat)
    (shortCode? : Option String) :
    updateLinkAction validUrl (some userId) s now linkId none shortCode?
      = (ActionResult.err "Required", s) := rfl

/-- C9: resolving a short code held by no row (compared verbatim) yields
the 404 response with the plain-text body and no redirect location. -/
theorem redirect_unknown_code_not_found (s : Store) (code : String)
    (h : ∀ l ∈ s.rows, l.shortCode ≠ code) :
    redirectGET s code = ⟨404, some "Link not found", none⟩ := by
  unfold redirectGET getLinkByShortCode
  rw [List.find?_eq_none.mpr (fun x hx => by simp [h x hx])]

/-- C9 witness: the lookup key is used verbatim — a store holding only
"ABC" answers 404 for "abc" (no case-folding) and for " ABC" (no
trimming). -/
theorem redirect_unknown_code_not_found_witness :
    redirectGET ⟨[⟨1, "u", "ABC", "https://a.example", 0, 0⟩], 2⟩ "abc"
      = ⟨404, some "Link not found", none⟩ ∧
    redirectGET ⟨[⟨1, "u", "ABC", "https://a.example", 0, 0⟩], 2⟩ " ABC"
      = ⟨404, some "Link not found", none⟩ :=
  ⟨redirect_unknown_code_not_found _ _ (by decide),
   redirect_unknown_code_not_found _ _ (by decide)⟩

/-- Every action result is one of the two branches of the uniform shape. -/
theorem actionResult_shape {α : Type} (p : ActionResult α × Store) :
    (∃ d s1, p = (ActionResult.ok d, s1)) ∨
    (∃ e s1, p = (ActionResult.err e, s1)) := by
  rcases p with ⟨r, s1⟩
  cases r with
  | ok d => exact Or.inl ⟨d, s1, rfl⟩
  | err e => exact Or.inr ⟨e, s1, rfl⟩

/-- A generated code always has the requested six characters. -/
theorem generateShortCode_length (rand : Nat → Nat) (start len : Nat) :
    (generateShortCode rand start len).length = len := by
  show ((List.range len).map _).length = len
  simp

/-- A generated code is never the empty string. -/
theorem generateShortCode_ne_empty (rand : Nat → Nat) (start : Nat) :
    generateShortCode rand start 6 ≠ "" := by
  intro h
  have hl := generateShortCode_length rand start 6
  rw [h] at hl
  exact absurd hl (by decide)

/-- C8: the three mutation entry points never throw: whatever the lower
layers do, each returns the uniform `ok`/`err` shape, and each listed
failure of a lower layer (missing identity, invalid url, duplicate custom
code, not-found/unauthorized target, generator exhaustion) is caught at
the boundary and surfaced as `err` with that failure's message, the store
left unchanged. -/
theorem actions_never_throw (validUrl : String → Bool) (userId? : Option String)
    (s : Store) (rand : Nat → Nat) (now linkId : Nat)
    (url? shortCode? : Option String) :
    ((∃ d s1, createLinkAction validUrl userId? s rand now url? shortCode?
        = (ActionResult.ok d, s1)) ∨
     (∃ e s1, createLinkAction validUrl userId? s rand now url? shortCode?
        = (ActionResult.err e, s1))) ∧
    ((∃ d s1, updateLinkAction validUrl userId? s now linkId url? shortCode?
        = (ActionResult.ok d, s1)) ∨
     (∃ e s1, updateLinkAction validUrl userId? s now linkId url? shortCode?
        = (ActionResult.err e, s1))) ∧
    ((∃ d s1, deleteLinkAction userId? s linkId = (ActionResult.ok d, s1)) ∨
     (∃ e s1, deleteLinkAction userId? s linkId = (ActionResult.err e, s1))) ∧
    (createLinkAction validUrl none s rand now url? shortCode?
        = (ActionResult.err "Unauthorized", s) ∧
     updateLinkAction validUrl none s now linkId url? shortCode?
        = (ActionResult.err "Unauthorized", s) ∧
     deleteLinkAction none s linkId = (ActionResult.err "Unauthorized", s)) ∧
    (∀ uid u, validUrl u = false →
      createLinkAction validUrl (some uid) s rand now (some u) shortCode?
        = (ActionResult.err "Please enter a valid URL", s)) ∧
    (∀ uid u sc l, validUrl u = true → ¬ sc.length < 3 → ¬ sc.length > 32 →
      sc.toList.all validShortCodeChar = true → l ∈ s.rows → l.shortCode = sc →
      createLinkAction validUrl (some uid) s rand now (some u) (some sc)
        = (ActionResult.err "Short code already exists", s)) ∧
    (∀ uid, getLinkById s linkId uid = none →
      deleteLinkAction (some uid) s linkId
        = (ActionResult.err "Link not found or unauthorized", s)) ∧
    (∀ uid u, validUrl u = true →
      (∀ i, i < 10 →
        shortCodeExists s (generateShortCode rand (6 * i) 6) = true) →
      createLinkAction validUrl (some uid) s rand now (some u) none
        = (ActionResult.err "Unable to generate unique short code", s)) := by
  refine ⟨actionResult_shape _, actionResult_shape _, actionResult_shape _,
    ⟨rfl, rfl, rfl⟩, ?_, ?_, ?_, ?_⟩
  · intro uid u h
    simp [createLinkAction, createLinkSchemaParse, h]
  · intro uid u sc l hvu h3 h32 hchar hm hsc
    have hne : sc ≠ "" := by
      intro he
      rw [he] at h3
      exact h3 (by decide)
    have hex : shortCodeExists s sc = true := shortCodeExists_of_mem hm hsc
    have hchard : sc.data.all validShortCodeChar = true := hchar
    simp [createLinkAction, createLinkSchemaParse, jsOrUndefined, createLink,
      createLinkAt, hvu, hne, h3, h32, hchar, hchard, hex]
  · intro uid h
    simp [deleteLinkAction, deleteLink, h]
  · intro uid u hvu hall
    have hgen : generateUniqueShortCode s rand
        = (Except.error "Unable to generate unique short code", 10) :=
      generateUniqueGo_all_taken s rand 10 0 (fun i hi => by simpa using hall i hi)
    simp [createLinkAction, createLinkSchemaParse, jsOrUndefined, createLink,
      createLinkAt, hvu, hgen]

/-- C8 witness: concrete runs of the scenario branches — an invalid url,
a taken custom code, a delete of a link the caller does not own, and a
saturated code space — each answered by the uniform failure shape. -/
theorem actions_never_throw_witness :
    createLinkAction (fun x => x == "https://ok.example") (some "userB")
        ⟨[⟨1, "userA", "promo1", "https://a.example", 0, 0⟩], 2⟩ (fun _ => 0) 9
        (some "notaurl") none
      = (ActionResult.err "Please enter a valid URL",
         ⟨[⟨1, "userA", "promo1", "https://a.example", 0, 0⟩], 2⟩) ∧
    createLinkAction (fun x => x == "https://ok.example") (some "userB")
        ⟨[⟨1, "userA", "promo1", "https://a.example", 0, 0⟩], 2⟩ (fun _ => 0) 9
        (some "https://ok.example") (some "promo1")
      = (ActionResult.err "Short code already exists",
         ⟨[⟨1, "userA", "promo1", "https://a.example", 0, 0⟩], 2⟩) ∧
    deleteLinkAction (some "userB")
        ⟨[⟨1, "userA", "promo1", "https://a.example", 0, 0⟩], 2⟩ 1
      = (ActionResult.err "Link not found or unauthorized",
         ⟨[⟨1, "userA", "promo1", "https://a.example", 0, 0⟩], 2⟩) ∧
    createLinkAction (fun x => x == "https://ok.example") (some "userB")
        ⟨[⟨1, "userA", "aaaaaa", "https://a.example", 0, 0⟩], 2⟩ (fun _ => 0) 9
        (some "https://ok.example") none
      = (ActionResult.err "Unable to generate unique short code",
         ⟨[⟨1, "userA", "aaaaaa", "https://a.example", 0, 0⟩], 2⟩) := by
  refine ⟨?_, ?_, ?_, ?_⟩
  · exact (actions_never_throw (fun x => x == "https://ok.example") (some "userB")
      ⟨[⟨1, "userA", "promo1", "https://a.example", 0, 0⟩], 2⟩ (fun _ => 0) 9 1
      (some "notaurl") none).2.2.2.2.1 "userB" "notaurl" (by decide)
  · exact (actions_never_throw (fun x => x == "https://ok.example") (some "userB")
      ⟨[⟨1, "userA", "promo1", "https://a.example", 0, 0⟩], 2⟩ (fun _ => 0) 9 1
      (some "https://ok.example") (some "promo1")).2.2.2.2.2.1 "userB"
      "https://ok.example" "promo1" ⟨1, "userA", "promo1", "https://a.example", 0, 0⟩
      (by decide) (by decide) (by decide) (by decide) (by simp) rfl
  · exact (actions_never_throw (fun x => x == "https://ok.example") (some "userB")
      ⟨[⟨1, "userA", "promo1", "https://a.example", 0, 0⟩], 2⟩ (fun _ => 0) 9 1
      none none).2.2.2.2.2.2.1 "userB" (by decide)
  · exact (actions_never_throw (fun x => x == "https://ok.example") (some "userB")
      ⟨[⟨1, "userA", "aaaaaa", "https://a.example", 0, 0⟩], 2⟩ (fun _ => 0) 9 1
      (some "https://ok.example") none).2.2.2.2.2.2.2 "userB"
      "https://ok.example" (by decide) (by decide)

/-- C10: at the `createLink` entry point an empty `shortCode` is not a
validation failure: the call is literally the same as omitting the field
(the entry point maps `"" || undefined` to `undefined`), and when the url
is accepted and the generator's first candidate is free the call succeeds
with a freshly generated six-character code — the empty string itself is
never stored, the new row carrying the generated code. -/
theorem createLinkAction_empty_shortCode (validUrl : String → Bool)
    (uid u : String) (s : Store) (rand : Nat → Nat) (now : Nat) :
    createLinkAction validUrl (some uid) s rand now (some u) (some "")
      = createLinkAction validUrl (some uid) s rand now (some u) none ∧
    (validUrl u = true →
      shortCodeExists s (generateShortCode rand 0 6) = false →
      createLinkAction validUrl (some uid) s rand now (some u) (some "")
        = (ActionResult.ok (generateShortCode rand 0 6),
           ⟨s.rows ++ [⟨s.nextId, uid, generateShortCode rand 0 6, u, now, now⟩],
            s.nextId + 1⟩) ∧
      generateShortCode rand 0 6 ≠ "") := by
  constructor
  · rfl
  · intro hvu hfresh
    refine ⟨?_, generateShortCode_ne_empty rand 0⟩
    have hgo := generateUniqueGo_first_fresh s rand 0 0 10 (by omega)
      (fun i hi => absurd hi (Nat.not_lt_zero i)) (by simpa using hfresh)
    have hgen : generateUniqueShortCode s rand
        = (Except.ok (generateShortCode rand 0 6), 1) := by
      simpa [generateUniqueShortCode] using hgo
    have hany : (s.rows.any fun l =>
        l.shortCode == generateShortCode rand 0 6) = false := hfresh
    simp [createLinkAction, createLinkSchemaParse, jsOrUndefined, createLink,
      createLinkAt, hvu, hgen, dbInsert, hany]

/-- C10 witness: on the empty store with the constant randomness oracle,
sending `shortCode = ""` succeeds and stores the generated "aaaaaa", not
the empty string. -/
theorem createLinkAction_empty_shortCode_witness :
    createLinkAction (fun _ => true) (some "user") ⟨[], 1⟩ (fun _ => 0) 0
        (some "https://example.com/x") (some "")
      = (ActionResult.ok "aaaaaa",
         ⟨[⟨1, "user", "aaaaaa", "https://example.com/x", 0, 0⟩], 2⟩) ∧
    ("aaaaaa" : String) ≠ "" := by
  have h := (createLinkAction_empty_shortCode (fun _ => true) "user"
    "https://example.com/x" ⟨[], 1⟩ (fun _ => 0) 0).2 rfl (by decide)
  have hc : generateShortCode (fun _ => 0) 0 6 = "aaaaaa" := by decide
  rw [hc] at h
  exact h
